import Mathlib

/-!
Shallow embedding of the job-distribution coordinator in
`src/starship/servers/server.py`: the `/next_video` route (GET = RequestWork,
POST = ReportOutcome), the `/status` route, and the periodic
`_check_and_retry_downloads` sweep, together with the in-memory `metadata`
and `workers_seen` dictionaries they mutate.

Timestamps (`time.time()`) are modelled as natural numbers passed in
explicitly as `now`.  The `metadata` dictionary is keyed by the job ids
`0 .. n-1` in insertion order, so it is modelled as a `List JobMeta` indexed
by position; `workers_seen` is an association list keyed by worker id.
The flags `FLAGS.retries` and `FLAGS.timeout` are passed as explicit
parameters (`retriesFlag`, `timeoutFlag`).
-/

namespace Starship

/-- The five status strings a job record can hold in the source. -/
inductive Status where
  | waiting
  | downloading
  | finished
  | skipped
  | failed
deriving DecidableEq, Repr

/-- One value of the `metadata` dictionary: the per-job mutable record
created in `main` with fields status, error, retries, start_time,
end_time, worker_id (all but status initialised to `None`/0). -/
structure JobMeta where
  status : Status
  error : Option String
  retries : Nat
  start_time : Option Nat
  end_time : Option Nat
  worker_id : Option String
deriving DecidableEq, Repr

/-- One value of the `workers_seen` dictionary. -/
structure WorkerInfo where
  last_seen : Nat
  status : String
  notified_finished : Bool
  message : String
deriving DecidableEq, Repr

/-- The coordinator's whole mutable state: the `metadata` dict (job id =
list index) and the `workers_seen` dict (association list). -/
structure ServerState where
  metadata : List JobMeta
  workers_seen : List (String × WorkerInfo)
deriving DecidableEq, Repr

/-- The fresh per-job record built in `main`. -/
def initialJob : JobMeta :=
  { status := .waiting
    error := none
    retries := 0
    start_time := none
    end_time := none
    worker_id := none }

/-- The state right after `main` loads `n` input payloads. -/
def initState (n : Nat) : ServerState :=
  { metadata := List.replicate n initialJob
    workers_seen := [] }

/-- `workers_seen[worker_id] = info`: replace the entry if the key is
present, append it otherwise (dict assignment). -/
def setWorker (ws : List (String × WorkerInfo)) (wid : String)
    (info : WorkerInfo) : List (String × WorkerInfo) :=
  match ws with
  | [] => [(wid, info)]
  | (k, v) :: rest =>
      if k = wid then (k, info) :: rest else (k, v) :: setWorker rest wid info

/-- The in-place update of an existing `workers_seen` entry performed at the
end of the POST branch: refresh `last_seen`, and overwrite `status` /
`message` only when the report carries `worker_status` / `worker_message`. -/
def updateWorkerOnReport (now : Nat) (wst wmsg : Option String)
    (w : WorkerInfo) : WorkerInfo :=
  { w with
      last_seen := now
      status := wst.getD w.status
      message := wmsg.getD w.message }

/-- `if data["worker_id"] in workers_seen: ...` — update the entry with the
matching key, leave everything else alone (no entry is created). -/
def touchSeen (ws : List (String × WorkerInfo)) (wid : String)
    (f : WorkerInfo → WorkerInfo) : List (String × WorkerInfo) :=
  ws.map (fun kv => if kv.1 = wid then (kv.1, f kv.2) else kv)

/-- Body of the redirect loop run when a worker reports
`worker_status != ok`: a job that is `downloading` AND whose stored
`worker_id` equals the reporting worker's id is forced back to `waiting`
with the worker's message as error and `retries` incremented.  (Note the
source initialises `worker_id` to `None` and never writes it again, so the
stored value is compared against the reporting worker's id as an
`Option String`.) -/
def redirectJob (wid msg : String) (m : JobMeta) : JobMeta :=
  if m.status == .downloading && m.worker_id == some wid then
    { m with status := .waiting, error := some msg, retries := m.retries + 1 }
  else m

/-- The mutation of the picked job in the GET branch: status `downloading`,
error cleared, `start_time` stamped with the current time, `end_time`
cleared.  The source writes no other field here (in particular it does not
write `worker_id`). -/
def assignJob (now : Nat) (m : JobMeta) : JobMeta :=
  { m with
      status := .downloading
      error := none
      start_time := some now
      end_time := none }

/-- The three reply shapes of the GET branch:
`{"finished": true}`, `{"pending_finish": true}`, or the picked job's
payload together with its `"_id"`. -/
inductive GetResp where
  | finished
  | pending_finish
  | job (id : Nat) (payload : String)
deriving DecidableEq, Repr

/-- The GET branch of `next_video` (RequestWork).  `video_data` is the
payload list loaded in `main`; `wid`, `wstatus`, `wmessage` are the query
parameters `worker_id`, `worker_status`, `worker_message`. -/
def next_video_get (now : Nat) (video_data : List String)
    (wid wstatus wmessage : String) (s : ServerState) :
    GetResp × ServerState :=
  let ws := setWorker s.workers_seen wid
    { last_seen := now
      status := wstatus
      notified_finished := false
      message := wmessage }
  if wstatus ≠ "ok" then
    (.finished,
      { metadata := s.metadata.map (redirectJob wid wmessage)
        workers_seen := ws })
  else
    match s.metadata.findIdx? (fun m => m.status == .waiting) with
    | none =>
        if s.metadata.any (fun m => m.status == .downloading) then
          (.pending_finish, { s with workers_seen := ws })
        else
          (.finished, { s with workers_seen := ws })
    | some idx =>
        (.job idx (video_data.getD idx ("")),
          { metadata := s.metadata.set idx
              (assignJob now (s.metadata.getD idx initialJob))
            workers_seen := ws })

/-- The JSON body of a POST report; `none` fields model missing keys. -/
structure PostData where
  video_id : Option Nat
  status : Option String
  worker_id : Option String
  worker_status : Option String
  worker_message : Option String
deriving DecidableEq, Repr

/-- The POST replies: `{"status": "ok"}` or `{"error": <reason>}`. -/
inductive PostResp where
  | ok
  | error (reason : String)
deriving DecidableEq, Repr

/-- The mutation of `metadata[video_id]` in the POST branch, where `st` is
the report's `status` field: `ok`/`skipped` are terminal successes; any
other string is a failure, bounded by `retriesFlag` (`FLAGS.retries`).
The current status of the job is never consulted. -/
def reportJob (retriesFlag now : Nat) (st : String) (m : JobMeta) : JobMeta :=
  if st == "ok" || st == "skipped" then
    { m with
        status := if st == "ok" then .finished else .skipped
        end_time := some now
        error := none }
  else if m.retries < retriesFlag then
    { m with
        end_time := some now
        error := some st
        status := .waiting
        retries := m.retries + 1 }
  else
    { m with end_time := some now, error := some st, status := .failed }

/-- The POST branch of `next_video` (ReportOutcome).  The argument `data`
is `None` when the request has no JSON body.  The result is `none` exactly
when the source raises an uncaught `KeyError`: `metadata[video_id]` with a
`video_id` that is not a key of `metadata`. -/
def next_video_post (retriesFlag now : Nat) (data : Option PostData)
    (s : ServerState) : Option (PostResp × ServerState) :=
  match data with
  | none => some (.error ("No data provided"), s)
  | some d =>
    match d.video_id with
    | none => some (.error ("No video_id provided"), s)
    | some vid =>
      match d.status with
      | none => some (.error ("No status provided"), s)
      | some st =>
        match d.worker_id with
        | none => some (.error ("No worker_id provided"), s)
        | some wid =>
          match s.metadata.get? vid with
          | none => none
          | some m =>
            some (.ok,
              { metadata := s.metadata.set vid (reportJob retriesFlag now st m)
                workers_seen := touchSeen s.workers_seen wid
                  (updateWorkerOnReport now d.worker_status d.worker_message) })

/-- The per-job test of `_check_and_retry_downloads`: status is
`downloading` and `time.time() - start_time > FLAGS.timeout`.  (When the
job is `downloading` its `start_time` is always set; the `none` arm is a
total completion of the partial source expression.) -/
def expired (now timeoutFlag : Nat) (m : JobMeta) : Bool :=
  m.status == .downloading &&
    (match m.start_time with
     | some t => decide (timeoutFlag < now - t)
     | none => false)

/-- One run of the `_check_and_retry_downloads` sweep over the whole
`metadata` dict: every expired downloading job goes back to `waiting` with
`retries` incremented and a timeout error message.  No retry bound is
consulted. -/
def check_and_retry_downloads (now timeoutFlag : Nat) (s : ServerState) :
    ServerState :=
  { s with
      metadata := s.metadata.map (fun m =>
        if expired now timeoutFlag m then
          { m with
              status := .waiting
              retries := m.retries + 1
              error := some ("Timeout waiting on worker") }
        else m) }

/-- The JSON object returned by the `/status` route. -/
structure StatusResp where
  total : Nat
  finished : Nat
  failed : Nat
  waiting : Nat
  downloading : Nat
  skipped : Nat
  retrying : Nat
  workers : List (String × WorkerInfo)
  done : Bool
deriving DecidableEq, Repr

/-- `len([1 for v in metadata.values() if p(v)])`. -/
def countIf (p : JobMeta → Bool) (ms : List JobMeta) : Nat :=
  (ms.filter p).length

/-- The `/status` route.  `total` is `len(videos)`, which the source keeps
equal to the number of `metadata` entries. -/
def statusRoute (s : ServerState) : StatusResp :=
  { total := s.metadata.length
    finished := countIf (fun m =>
      m.status == .finished || m.status == .skipped || m.status == .failed)
      s.metadata
    failed := countIf (fun m => m.status == .failed) s.metadata
    waiting := countIf (fun m => m.status == .waiting) s.metadata
    downloading := countIf (fun m => m.status == .downloading) s.metadata
    skipped := countIf (fun m => m.status == .skipped) s.metadata
    retrying := countIf (fun m => m.status == .waiting && decide (m.retries > 0))
      s.metadata
    workers := s.workers_seen
    done := s.metadata.all (fun m =>
      !(m.status == .waiting || m.status == .downloading)) }

end Starship

namespace Starship

/-! ## Concrete scenario states -/

/-- A one-payload input file. -/
def vd1 : List String := [("p0")]

/-- Payloads for the three-job retry scenario. -/
def c3vd : List String := [("a"), ("b"), ("c")]

/-- Worker A's failing report for job 0. -/
def c3report : Option PostData :=
  some ⟨some 0, some ("error"), some ("A"), none, none⟩

/-- Three-job scenario, after worker A's first RequestWork. -/
def c3s1 : ServerState :=
  (next_video_get 1 c3vd ("A") ("ok") ("") (initState 3)).2

/-- Three-job scenario, after worker A's first failure report. -/
def c3s2 : ServerState :=
  match next_video_post 1 2 c3report c3s1 with
  | some r => r.2
  | none => c3s1

/-- Three-job scenario, after worker A's second RequestWork. -/
def c3s3 : ServerState :=
  (next_video_get 3 c3vd ("A") ("ok") ("") c3s2).2

/-- Three-job scenario, after worker A's second failure report. -/
def c3s4 : ServerState :=
  match next_video_post 1 4 c3report c3s3 with
  | some r => r.2
  | none => c3s3

end Starship

namespace Starship

/-! ## Claims -/

/-- Claim C1.  The spec says that after a worker holding an assigned job
reports `worker_status=err`, that job is back in `waiting`.  Evaluating the
code on that scenario: worker `w` is handed job 0 and then reports `err`;
the reply is `{"finished": true}` as claimed, but job 0 is still
`downloading` — the source never writes `worker_id` on assignment, so the
redirect condition `metadata[v]["worker_id"] == worker_id` never matches. -/
theorem C1_worker_err_leaves_job_downloading :
    (next_video_get 20 vd1 ("w") ("err") ("boom")
        (next_video_get 10 vd1 ("w") ("ok") ("") (initState 1)).2).1
      = .finished
    ∧ ((next_video_get 20 vd1 ("w") ("err") ("boom")
        (next_video_get 10 vd1 ("w") ("ok") ("") (initState 1)).2).2.metadata.get? 0).map
        (fun m => m.status)
      = some .downloading := ⟨rfl, rfl⟩

/-- Claim C2.  The claimed invariant `assigned ⇒ worker_id non-empty` fails
in the first reachable assigned state: a fresh one-job ledger after one
healthy RequestWork has job 0 `downloading` with `worker_id = None`
(`start_time` is set, as claimed). -/
theorem C2_assignment_leaves_worker_id_unset :
    ((next_video_get 10 vd1 ("w") ("ok") ("") (initState 1)).2.metadata.get? 0).map
        (fun m => (m.status, m.worker_id, m.start_time))
      = some (.downloading, none, some 10) := rfl

/-- Claim C6.  A report whose `video_id` is not a ledger key does not get a
structured error reply: `metadata[video_id]` raises an uncaught `KeyError`
(modelled as `none`). -/
theorem C6_unknown_job_id_crashes :
    next_video_post 3 5 (some ⟨some 5, some ("ok"), some ("w"), none, none⟩)
      (initState 1) = none := rfl

end Starship

namespace Starship

/-! ## Counting helpers for the `/status` route -/

theorem countIf_eq_zero_iff (p : JobMeta → Bool) (ms : List JobMeta) :
    countIf p ms = 0 ↔ ∀ m ∈ ms, p m = false := by
  simp [countIf, List.length_eq_zero, List.filter_eq_nil]

theorem done_iff_forall (s : ServerState) :
    (statusRoute s).done = true ↔
      ∀ m ∈ s.metadata, m.status ≠ .waiting ∧ m.status ≠ .downloading := by
  simp [statusRoute, List.all_eq_true]

theorem status_terminal_iff (st : Status) :
    (st ≠ .waiting ∧ st ≠ .downloading) ↔
      (st = .finished ∨ st = .skipped ∨ st = .failed) := by
  cases st <;> simp

theorem countIf_partition (ms : List JobMeta) :
    countIf (fun m =>
        m.status == .finished || m.status == .skipped || m.status == .failed) ms
      + countIf (fun m => m.status == .waiting) ms
      + countIf (fun m => m.status == .downloading) ms
      = ms.length := by
  induction ms with
  | nil => rfl
  | cons m rest ih =>
      cases h : m.status <;>
        simp [countIf, List.filter_cons, h] at ih ⊢ <;> omega

theorem countIf_terminal_split (ms : List JobMeta) :
    countIf (fun m =>
        m.status == .finished || m.status == .skipped || m.status == .failed) ms
      = countIf (fun m => m.status == .finished) ms
        + countIf (fun m => m.status == .skipped) ms
        + countIf (fun m => m.status == .failed) ms := by
  induction ms with
  | nil => rfl
  | cons m rest ih =>
      cases h : m.status <;>
        simp [countIf, List.filter_cons, h] at ih ⊢ <;> omega

/-- Claim C5.  `done` is true iff no job is `waiting` and no job is
`downloading`, equivalently iff every job is `finished`, `skipped` or
`failed`. -/
theorem C5_done_iff (s : ServerState) :
    ((statusRoute s).done = true ↔
      (statusRoute s).waiting = 0 ∧ (statusRoute s).downloading = 0)
    ∧ ((statusRoute s).done = true ↔
      ∀ m ∈ s.metadata,
        m.status = .finished ∨ m.status = .skipped ∨ m.status = .failed) := by
  have hW : (statusRoute s).waiting = 0 ↔
      ∀ m ∈ s.metadata, m.status ≠ .waiting := by
    rw [show (statusRoute s).waiting
        = countIf (fun m => m.status == .waiting) s.metadata from rfl,
      countIf_eq_zero_iff]
    simp
  have hD : (statusRoute s).downloading = 0 ↔
      ∀ m ∈ s.metadata, m.status ≠ .downloading := by
    rw [show (statusRoute s).downloading
        = countIf (fun m => m.status == .downloading) s.metadata from rfl,
      countIf_eq_zero_iff]
    simp
  have hdone := done_iff_forall s
  constructor
  · rw [hdone, hW, hD]
    constructor
    · intro h
      exact ⟨fun m hm => (h m hm).1, fun m hm => (h m hm).2⟩
    · intro h m hm
      exact ⟨h.1 m hm, h.2 m hm⟩
  · rw [hdone]
    constructor
    · intro h m hm
      exact (status_terminal_iff m.status).mp (h m hm)
    · intro h m hm
      exact (status_terminal_iff m.status).mpr (h m hm)

/-- Claim C10.  The `finished` count of `/status` counts every job whose
status is `finished`, `skipped` or `failed`, and therefore equals
`total - waiting - downloading`. -/
theorem C10_finished_count (s : ServerState) :
    (statusRoute s).finished
      = countIf (fun m => m.status == .finished) s.metadata
        + countIf (fun m => m.status == .skipped) s.metadata
        + countIf (fun m => m.status == .failed) s.metadata
    ∧ (statusRoute s).finished
      = (statusRoute s).total - (statusRoute s).waiting
          - (statusRoute s).downloading := by
  refine ⟨countIf_terminal_split s.metadata, ?_⟩
  have h := countIf_partition s.metadata
  have e1 : (statusRoute s).finished
      = countIf (fun m =>
          m.status == .finished || m.status == .skipped || m.status == .failed)
        s.metadata := rfl
  have e2 : (statusRoute s).total = s.metadata.length := rfl
  have e3 : (statusRoute s).waiting
      = countIf (fun m => m.status == .waiting) s.metadata := rfl
  have e4 : (statusRoute s).downloading
      = countIf (fun m => m.status == .downloading) s.metadata := rfl
  rw [e1, e2, e3, e4]
  omega

/-- Claim C4.  One sweep run returns every timed-out `downloading` job to
`waiting` with `retries` incremented and the timeout message as error,
whatever its current retry count — never to `failed`. -/
theorem C4_reclaim_expired (now timeoutFlag : Nat) (s : ServerState)
    (j t : Nat) (m : JobMeta)
    (hm : s.metadata.get? j = some m)
    (hs : m.status = .downloading)
    (ht : m.start_time = some t)
    (hexp : timeoutFlag < now - t) :
    (check_and_retry_downloads now timeoutFlag s).metadata.get? j
      = some { m with
          status := .waiting
          retries := m.retries + 1
          error := some ("Timeout waiting on worker") } := by
  have hex : expired now timeoutFlag m = true := by
    simp [expired, hs, ht, hexp]
  simp only [check_and_retry_downloads, List.get?_map, hm, Option.map_some']
  simp [hex]

/-- A `downloading` job assigned at time 0 with an arbitrary retry count. -/
def dlJob : JobMeta :=
  { initialJob with status := .downloading, start_time := some 0, retries := 5 }

/-- A one-job state whose only job is `downloading` since time 0. -/
def dlState : ServerState := { metadata := [dlJob], workers_seen := [] }

/-- Witness for C4: the sweep at time 100 with timeout 10 reclaims the job
even though its retry count (5) exceeds the default retry bound. -/
theorem C4_reclaim_expired_witness :
    (check_and_retry_downloads 100 10 dlState).metadata.get? 0
      = some { dlJob with
          status := .waiting
          retries := dlJob.retries + 1
          error := some ("Timeout waiting on worker") } :=
  C4_reclaim_expired 100 10 dlState 0 0 dlJob rfl rfl rfl (by decide)

end Starship

namespace Starship

/-- Claim C3.  The 3-job, `max_retries = 1` scenario plays out exactly as
claimed, and in general a report whose status is neither `ok` nor
`skipped` returns the job to `waiting` with `retries` incremented and the
error recorded while `retries < FLAGS.retries`, and marks it `failed`
otherwise. -/
theorem C3_retry_bound :
    ((next_video_get 1 c3vd ("A") ("ok") ("") (initState 3)).1
        = .job 0 ("a")
      ∧ next_video_post 1 2 c3report c3s1 = some (.ok, c3s2)
      ∧ (c3s2.metadata.get? 0).map (fun m => (m.status, m.retries))
          = some (.waiting, 1)
      ∧ (next_video_get 3 c3vd ("A") ("ok") ("") c3s2).1 = .job 0 ("a")
      ∧ next_video_post 1 4 c3report c3s3 = some (.ok, c3s4)
      ∧ (c3s4.metadata.get? 0).map (fun m => m.status) = some .failed
      ∧ (statusRoute c3s4).failed = 1)
    ∧ ∀ (retriesFlag now vid : Nat) (st wid : String) (s : ServerState)
        (m : JobMeta),
        s.metadata.get? vid = some m →
        st ≠ ("ok") → st ≠ ("skipped") →
        (next_video_post retriesFlag now
            (some ⟨some vid, some st, some wid, none, none⟩) s).map
            (fun r => (r.1, r.2.metadata.get? vid))
          = some (.ok, some (if m.retries < retriesFlag then
              { m with
                  end_time := some now
                  error := some st
                  status := .waiting
                  retries := m.retries + 1 }
            else
              { m with
                  end_time := some now
                  error := some st
                  status := .failed })) := by
  refine ⟨⟨rfl, rfl, rfl, rfl, rfl, rfl, rfl⟩, ?_⟩
  intro retriesFlag now vid st wid s m hm hok hsk
  have hlt : vid < s.metadata.length := by
    rcases List.get?_eq_some.mp hm with ⟨h, _⟩
    exact h
  have hbok : (st == ("ok")) = false := beq_eq_false_iff_ne.mpr hok
  have hbsk : (st == ("skipped")) = false := beq_eq_false_iff_ne.mpr hsk
  simp only [next_video_post, hm, Option.map_some']
  rw [List.get?_set_eq_of_lt _ hlt]
  simp only [reportJob, hbok, hbsk, Bool.or_self, Bool.false_or, if_false,
    Bool.false_eq_true]

/-- Witness for C3's general retry rule, at a fresh one-job ledger. -/
theorem C3_retry_bound_witness :
    (next_video_post 1 9 (some ⟨some 0, some ("error"), some ("w"), none, none⟩)
        (initState 1)).map (fun r => (r.1, r.2.metadata.get? 0))
      = some (.ok, some (if initialJob.retries < 1 then
          { initialJob with
              end_time := some 9
              error := some ("error")
              status := .waiting
              retries := initialJob.retries + 1 }
        else
          { initialJob with
              end_time := some 9
              error := some ("error")
              status := .failed })) :=
  C3_retry_bound.2 1 9 0 ("error") ("w") (initState 1) initialJob rfl
    (by decide) (by decide)

/-- Claim C9.  A POST report with no body or a missing required field is
answered with the corresponding `{"error": ...}` reply and the whole state
(jobs and workers alike) is returned unchanged. -/
theorem C9_malformed_report (retriesFlag now : Nat) (s : ServerState)
    (d : PostData) :
    (next_video_post retriesFlag now none s
      = some (.error ("No data provided"), s))
    ∧ (d.video_id = none →
      next_video_post retriesFlag now (some d) s
        = some (.error ("No video_id provided"), s))
    ∧ (d.video_id ≠ none → d.status = none →
      next_video_post retriesFlag now (some d) s
        = some (.error ("No status provided"), s))
    ∧ (d.video_id ≠ none → d.status ≠ none → d.worker_id = none →
      next_video_post retriesFlag now (some d) s
        = some (.error ("No worker_id provided"), s)) := by
  obtain ⟨vi, st, wi, ws, wm⟩ := d
  refine ⟨rfl, ?_, ?_, ?_⟩
  · intro h
    cases h
    rfl
  · intro hv hs
    cases hs
    cases vi with
    | none => exact absurd rfl hv
    | some v => rfl
  · intro hv hs hw
    cases hw
    cases vi with
    | none => exact absurd rfl hv
    | some v =>
      cases st with
      | none => exact absurd rfl hs
      | some st0 => rfl

/-- Witness for C9: a report missing its `video_id`. -/
theorem C9_malformed_report_witness :
    next_video_post 3 5
        (some (⟨none, some ("ok"), some ("w"), none, none⟩ : PostData))
        (initState 2)
      = some (.error ("No video_id provided"), initState 2) :=
  (C9_malformed_report 3 5 (initState 2)
    ⟨none, some ("ok"), some ("w"), none, none⟩).2.1 rfl

end Starship

namespace Starship

/-- One-job scenario, after worker w's first RequestWork. -/
def c7s1 : ServerState :=
  (next_video_get 1 vd1 ("w") ("ok") ("") (initState 1)).2

/-- Worker w's success report for job 0. -/
def c7okReport : Option PostData :=
  some ⟨some 0, some ("ok"), some ("w"), none, none⟩

/-- Worker w's failure report for job 0. -/
def c7errReport : Option PostData :=
  some ⟨some 0, some ("error"), some ("w"), none, none⟩

/-- One-job scenario, after job 0 was reported done. -/
def c7s2 : ServerState :=
  match next_video_post 3 2 c7okReport c7s1 with
  | some r => r.2
  | none => c7s1

/-- Counterexample to claim C7 as stated: job 0 has reached the terminal
status `finished`, yet a later failure report naming it moves it back to
`waiting` — the POST branch never consults the job's current status. -/
theorem C7_counterexample :
    (c7s2.metadata.get? 0).map (fun m => m.status) = some .finished
    ∧ (next_video_post 3 3 c7errReport c7s2).map
        (fun r => (r.2.metadata.get? 0).map (fun m => m.status))
      = some (some .waiting) := ⟨rfl, rfl⟩

/-- Claim C7, amended.  Every status change RequestWork (GET) makes to a
job follows the edges `waiting → downloading` (assignment) or
`downloading → waiting` (unhealthy-worker redirect); every change the
reclaim sweep makes follows `downloading → waiting`; consequently a job
whose status is terminal (`finished`, `skipped` or `failed`) is never
touched by RequestWork or the sweep.  Only a later ReportOutcome naming
the job can still mutate it. -/
theorem C7_get_sweep_edges
    (s : ServerState) (j : Nat) (m : JobMeta)
    (hm : s.metadata.get? j = some m) :
    (∀ now video_data wid wstatus wmessage,
      ∃ m2, (next_video_get now video_data wid wstatus wmessage
            s).2.metadata.get? j = some m2
        ∧ (m2 = m
          ∨ (m.status = .waiting ∧ m2.status = .downloading)
          ∨ (m.status = .downloading ∧ m2.status = .waiting)))
    ∧ (∀ now timeoutFlag,
      ∃ m2, (check_and_retry_downloads now timeoutFlag s).metadata.get? j
          = some m2
        ∧ (m2 = m ∨ (m.status = .downloading ∧ m2.status = .waiting)))
    ∧ (m.status = .finished ∨ m.status = .skipped ∨ m.status = .failed →
      (∀ now video_data wid wstatus wmessage,
        (next_video_get now video_data wid wstatus wmessage
          s).2.metadata.get? j = some m)
      ∧ ∀ now timeoutFlag,
        (check_and_retry_downloads now timeoutFlag s).metadata.get? j
          = some m) := by
  have hlt : j < s.metadata.length := by
    rcases List.get?_eq_some.mp hm with ⟨h, _⟩
    exact h
  have hgete : ∀ now video_data wid wstatus wmessage,
      ∃ m2, (next_video_get now video_data wid wstatus wmessage
            s).2.metadata.get? j = some m2
        ∧ (m2 = m
          ∨ (m.status = .waiting ∧ m2.status = .downloading)
          ∨ (m.status = .downloading ∧ m2.status = .waiting)) := by
    intro now video_data wid wstatus wmessage
    by_cases hok : wstatus = "ok"
    · subst hok
      simp only [next_video_get]
      rw [if_neg (by simp)]
      cases hidx : s.metadata.findIdx? (fun m => m.status == .waiting) with
      | none =>
          refine ⟨m, ?_, Or.inl rfl⟩
          by_cases hdl : s.metadata.any (fun m => m.status == .downloading) <;>
            simp [hdl] <;> rw [← List.get?_eq_getElem?] <;> exact hm
      | some idx =>
          by_cases hji : j = idx
          · subst hji
            refine ⟨assignJob now (s.metadata.getD j initialJob), ?_, ?_⟩
            · simp only []
              rw [List.get?_set_eq_of_lt _ hlt]
            · refine Or.inr (Or.inl ⟨?_, rfl⟩)
              rcases List.findIdx?_eq_some_iff_getElem.mp hidx with ⟨_, hp, _⟩
              rcases List.get?_eq_some.mp hm with ⟨_, hg⟩
              rw [List.get_eq_getElem] at hg
              rw [hg] at hp
              exact eq_of_beq hp
          · refine ⟨m, ?_, Or.inl rfl⟩
            simp only []
            rw [List.get?_set_ne _ _ (fun he => hji he.symm)]
            exact hm
    · simp only [next_video_get]
      rw [if_pos hok]
      refine ⟨redirectJob wid wmessage m, ?_, ?_⟩
      · rw [List.get?_map, hm]
        rfl
      · by_cases hc :
          (m.status == Status.downloading && m.worker_id == some wid) = true
        · refine Or.inr (Or.inr ⟨?_, ?_⟩)
          · exact eq_of_beq ((Bool.and_eq_true _ _).mp hc).1
          · simp [redirectJob, hc]
        · exact Or.inl (by simp [redirectJob, hc])
  have hsweepe : ∀ now timeoutFlag,
      ∃ m2, (check_and_retry_downloads now timeoutFlag s).metadata.get? j
          = some m2
        ∧ (m2 = m ∨ (m.status = .downloading ∧ m2.status = .waiting)) := by
    intro now timeoutFlag
    by_cases hex : expired now timeoutFlag m = true
    · refine ⟨{ m with
          status := .waiting
          retries := m.retries + 1
          error := some ("Timeout waiting on worker") }, ?_, ?_⟩
      · simp only [check_and_retry_downloads, List.get?_map, hm,
          Option.map_some']
        rw [if_pos hex]
      · refine Or.inr ⟨?_, rfl⟩
        have hx := hex
        simp only [expired, Bool.and_eq_true] at hx
        exact eq_of_beq hx.1
    · refine ⟨m, ?_, Or.inl rfl⟩
      simp only [check_and_retry_downloads, List.get?_map, hm,
        Option.map_some']
      rw [if_neg hex]
  refine ⟨hgete, hsweepe, ?_⟩
  intro ht
  constructor
  · intro now video_data wid wstatus wmessage
    obtain ⟨m2, hg, hd⟩ := hgete now video_data wid wstatus wmessage
    have hm2 : m2 = m := by
      rcases hd with h | ⟨h1, _⟩ | ⟨h1, _⟩
      · exact h
      · rcases ht with h2 | h2 | h2 <;> simp [h2] at h1
      · rcases ht with h2 | h2 | h2 <;> simp [h2] at h1
    rw [hg, hm2]
  · intro now timeoutFlag
    obtain ⟨m2, hg, hd⟩ := hsweepe now timeoutFlag
    have hm2 : m2 = m := by
      rcases hd with h | ⟨h1, _⟩
      · exact h
      · rcases ht with h2 | h2 | h2 <;> simp [h2] at h1
    rw [hg, hm2]

/-- A terminal (finished) one-job record. -/
def termJob : JobMeta := { initialJob with status := .finished }

/-- A one-job state whose job is already finished. -/
def termState : ServerState := { metadata := [termJob], workers_seen := [] }

/-- Witness for C7's amended statement: on a concrete finished job, both
the edge disjunction and the terminal-freeze consequence are exercised. -/
theorem C7_get_sweep_edges_witness :
    (∃ m2, (next_video_get 5 vd1 ("w") ("ok") ("") termState).2.metadata.get? 0
        = some m2
      ∧ (m2 = termJob
        ∨ (termJob.status = .waiting ∧ m2.status = .downloading)
        ∨ (termJob.status = .downloading ∧ m2.status = .waiting)))
    ∧ (next_video_get 5 vd1 ("w") ("ok") ("") termState).2.metadata.get? 0
      = some termJob
    ∧ (check_and_retry_downloads 100 1 termState).metadata.get? 0
      = some termJob :=
  ⟨(C7_get_sweep_edges termState 0 termJob rfl).1 5 vd1 ("w") ("ok") (""),
   ((C7_get_sweep_edges termState 0 termJob rfl).2.2 (Or.inl rfl)).1 5 vd1
      ("w") ("ok") (""),
   ((C7_get_sweep_edges termState 0 termJob rfl).2.2 (Or.inl rfl)).2 100 1⟩

end Starship

namespace Starship

/-- Claim C8.  RequestWork from a healthy worker: with no `waiting` job it
replies `pending_finish` when some job is `downloading` and `finished`
otherwise, leaving every job untouched; with a `waiting` job it picks the
first one, marks it `downloading` with a fresh `start_time`, and returns
its payload with its id.  The code's tests are tied to the claim's
wording by the final two equivalences. -/
theorem C8_request_work_ok (now : Nat) (video_data : List String)
    (wid wmessage : String) (s : ServerState) :
    (s.metadata.findIdx? (fun m => m.status == .waiting) = none →
      s.metadata.any (fun m => m.status == .downloading) = true →
      (next_video_get now video_data wid ("ok") wmessage s).1 = .pending_finish
        ∧ (next_video_get now video_data wid ("ok") wmessage s).2.metadata
          = s.metadata)
    ∧ (s.metadata.findIdx? (fun m => m.status == .waiting) = none →
      s.metadata.any (fun m => m.status == .downloading) = false →
      (next_video_get now video_data wid ("ok") wmessage s).1 = .finished
        ∧ (next_video_get now video_data wid ("ok") wmessage s).2.metadata
          = s.metadata)
    ∧ (∀ idx m,
      s.metadata.findIdx? (fun m => m.status == .waiting) = some idx →
      s.metadata.get? idx = some m →
      m.status = .waiting
        ∧ (next_video_get now video_data wid ("ok") wmessage s).1
          = .job idx (video_data.getD idx (""))
        ∧ (next_video_get now video_data wid ("ok") wmessage s).2.metadata.get? idx
          = some { m with
              status := .downloading
              error := none
              start_time := some now
              end_time := none })
    ∧ (s.metadata.findIdx? (fun m => m.status == .waiting) = none ↔
      ∀ m ∈ s.metadata, m.status ≠ .waiting)
    ∧ (s.metadata.any (fun m => m.status == .downloading) = true ↔
      ∃ m ∈ s.metadata, m.status = .downloading) := by
  refine ⟨?_, ?_, ?_, ?_, ?_⟩
  · intro hidx hdl
    simp only [next_video_get]
    rw [if_neg (by simp)]
    rw [hidx]
    simp [hdl]
  · intro hidx hdl
    simp only [next_video_get]
    rw [if_neg (by simp)]
    rw [hidx]
    simp [hdl]
  · intro idx m hidx hm
    have hlt : idx < s.metadata.length := by
      rcases List.get?_eq_some.mp hm with ⟨h, _⟩
      exact h
    have hw : m.status = .waiting := by
      rcases List.findIdx?_eq_some_iff_getElem.mp hidx with ⟨hlt2, hp, _⟩
      rcases List.get?_eq_some.mp hm with ⟨hlt3, hg⟩
      rw [List.get_eq_getElem] at hg
      rw [hg] at hp
      exact eq_of_beq hp
    refine ⟨hw, ?_, ?_⟩
    · simp only [next_video_get]
      rw [if_neg (by simp)]
      rw [hidx]
    · simp only [next_video_get]
      rw [if_neg (by simp)]
      rw [hidx]
      simp only []
      rw [List.get?_set_eq_of_lt _ hlt]
      rw [List.getD_eq_get?, hm]
      rfl
  · simp [List.findIdx?_eq_none_iff]
  · simp [List.any_eq_true]

/-- Witness for C8's pick branch on a fresh one-job ledger. -/
theorem C8_request_work_ok_witness :
    initialJob.status = .waiting
    ∧ (next_video_get 7 vd1 ("w") ("ok") ("") (initState 1)).1
      = .job 0 (vd1.getD 0 (""))
    ∧ (next_video_get 7 vd1 ("w") ("ok") ("") (initState 1)).2.metadata.get? 0
      = some { initialJob with
          status := .downloading
          error := none
          start_time := some 7
          end_time := none } :=
  (C8_request_work_ok 7 vd1 ("w") ("") (initState 1)).2.2.1 0 initialJob rfl rfl

end Starship
